import Mathlib

/-!
Verification development for the LLM music-trivia game repository.

The repository consists of several drafts of the same browser game.  The parts
relevant here are embedded shallowly:

* the JSON-extraction ("robust JSON cleaning") pipelines of
  `runLLM_Command` / `runLLM_Question_Command` (`src/unnamed/part_001`),
  `runLLM_Topic_Command` (`src/llm_service.js`), and
  `runLLM_API_Call` (`src/unnamed/part_002`);
* the field-presence validation performed on parsed `Question` records;
* the quiz scene state updates: `processPlayerGuess` of `src/unnamed/part_003`
  (second draft, the one that applies the LLM `StatusUpdate` to the global
  `gameState`) and `processPlayerGuess` of `src/app.jsx` (the threshold-based
  draft), together with `getTopics` / `showTopicSelection`, `startNextRound`
  and the `callGeminiAPI` retry loop.

JavaScript strings are modelled as `List Char`; thrown `Error`s as `Except`
errors; fields that may be absent in parsed JSON as `Option`.
-/

namespace MusicTrivia

/-! ## JavaScript string primitives used by the extraction pipelines -/

/-- The opening curly brace character, written via its code point. -/
def lbrace : Char := Char.ofNat 123

/-- The closing curly brace character, written via its code point. -/
def rbrace : Char := Char.ofNat 125

/-- The backtick character used by markdown code fences. -/
def btick : Char := Char.ofNat 96

/-- Whitespace as removed by JavaScript `String.prototype.trim` (the ASCII
part, which is all the development relies on). -/
def isJsWs (c : Char) : Bool :=
  c == ' ' || c == '\t' || c == '\n' || c == '\r' || c == '\x0b' || c == '\x0c'

/-- Left half of `trim`. -/
def trimL (l : List Char) : List Char := l.dropWhile isJsWs

/-- Right half of `trim`. -/
def trimR (l : List Char) : List Char := (l.reverse.dropWhile isJsWs).reverse

/-- JavaScript `s.trim()`. -/
def jsTrim (l : List Char) : List Char := trimR (trimL l)

/-- Step 1 of the cleaning pipelines: `jsonString.substring(jsonString.indexOf(lbrace))`,
i.e. discard everything before the first opening brace.  (Callers check the
brace exists before using this.) -/
def dropBeforeFirstBrace (l : List Char) : List Char :=
  l.dropWhile (fun c => !(c == lbrace))

/-- Step 2 (present in `part_001` / `part_002` but NOT in the
`src/llm_service.js` draft): `substring(0, lastIndexOf(rbrace) + 1)`,
i.e. keep everything up to and including the last closing brace; if there is
no closing brace the string is kept unchanged. -/
def keepThroughLastBrace (l : List Char) : List Char :=
  if l.contains rbrace then (l.reverse.dropWhile (fun c => !(c == rbrace))).reverse else l

/-- A markdown fence token: three backticks. -/
def fenceToken : List Char := [btick, btick, btick]

/-- JavaScript `jsonString.endsWith(fence)`. -/
def endsWithFence (l : List Char) : Bool := l.reverse.take 3 == fenceToken

/-- Whether a fence token starts at position `i`. -/
def fenceAt (l : List Char) (i : Nat) : Bool := (l.drop i).take 3 == fenceToken

/-- JavaScript `jsonString.lastIndexOf(fence)`. -/
def lastFenceIndex (l : List Char) : Option Nat :=
  (List.range l.length).reverse.find? (fenceAt l)

/-- Step 3: `if (endsWith(fence)) jsonString = substring(0, lastIndexOf(fence)).trim()`. -/
def stripFence (l : List Char) : List Char :=
  if endsWithFence l then jsTrim (l.take ((lastFenceIndex l).getD 0)) else l

/-- One test of the `while (endsWith . or endsWith newline)` loop condition. -/
def trailingJunk (l : List Char) : Bool :=
  l.getLast? == some '.' || l.getLast? == some '\n'

/-- Step 4: `while (endsWith . or newline) jsonString = slice(0, -1).trim()`.
Each iteration strictly shortens the string, so running the loop body
`l.length` many times is exhaustive; the fuel formulation keeps the function
kernel-reducible. -/
def stripTrailingJunkFuel : Nat → List Char → List Char
  | 0, l => l
  | fuel + 1, l => if trailingJunk l then stripTrailingJunkFuel fuel (jsTrim l.dropLast) else l

/-- The trailing-junk loop of the extraction pipelines. -/
def stripTrailingJunk (l : List Char) : List Char := stripTrailingJunkFuel l.length l

/-! ## The three extraction pipelines -/

/-- The error raised when the generated text contains no opening brace.
In the source this is `throw new Error("LLM Output did not contain a JSON
start bracket ...")` - note the raw response text is not attached to it. -/
inductive ExtractError
  | noJsonStart
deriving DecidableEq

/-- The cleaning steps shared by `runLLM_Command`, `runLLM_Topic_Command` and
`runLLM_Question_Command` in `src/unnamed/part_001` and by `runLLM_API_Call`
in `src/unnamed/part_002` (the drafts that truncate after the last brace). -/
def cleanWithLastBrace (l : List Char) : List Char :=
  stripTrailingJunk (stripFence (keepThroughLastBrace (dropBeforeFirstBrace l)))

/-- The extraction phase of `runLLM_Command` (`src/unnamed/part_001`, lines
222-263): trim, require an opening brace, drop the prose before it, truncate
after the last closing brace, strip a trailing fence and trailing dots or
newlines.  The returned string is what the source hands to `JSON.parse`. -/
def runLLM_Command_extract (full : List Char) : Except ExtractError (List Char) :=
  if (jsTrim full).contains lbrace then .ok (cleanWithLastBrace (jsTrim full))
  else .error .noJsonStart

/-- The extraction phase of `runLLM_Topic_Command` in `src/llm_service.js`
(lines 352-372): same as above but WITHOUT the last-brace truncation step. -/
def runLLM_Topic_Command_extract (full : List Char) : Except ExtractError (List Char) :=
  if (jsTrim full).contains lbrace then
    .ok (stripTrailingJunk (stripFence (dropBeforeFirstBrace (jsTrim full))))
  else .error .noJsonStart

/-- Error raised by `runLLM_API_Call` (`src/unnamed/part_002`) when no opening
brace is found and a schema name was supplied; the thrown message names the
schema but does not carry the raw response text. -/
inductive APIError
  | noJsonStart (schemaName : List Char)
deriving DecidableEq

/-- What `runLLM_API_Call` produces before `JSON.parse`: either a cleaned
JSON candidate string, or - for the commentary path, where `schemaName` is
the empty string - the raw response text returned as a plain value. -/
inductive APIResult
  | cleaned (json : List Char)
  | rawText (text : List Char)
deriving DecidableEq

/-- The extraction phase of `runLLM_API_Call` (`src/unnamed/part_002`, lines
233-294).  If the trimmed response contains no opening brace, the source
returns the raw text when `schemaName` is the empty string and throws
otherwise; with an opening brace it runs the shared cleaning steps. -/
def runLLM_API_Call_extract (schemaName full : List Char) : Except APIError APIResult :=
  if (jsTrim full).contains lbrace then .ok (.cleaned (cleanWithLastBrace (jsTrim full)))
  else if schemaName == ([] : List Char) then .ok (.rawText full)
  else .error (.noJsonStart schemaName)

/-! ## Question-record validation (`runLLM_Question_Command`, step 5)

`src/unnamed/part_001` lines 432-440 and `src/llm_service.js` lines 472-486
validate the parsed question with
`if (!result.question_text || !result.options || !result.correct_answer ||
!result.conductor_comment) throw ...`.  JavaScript truthiness: a missing
field and the empty string are falsy; an array is always truthy. -/

/-- A parsed `Question` JSON object; `none` models an absent field. -/
structure QuestionRecord where
  question_text : Option String
  options : Option (List String)
  correct_answer : Option String
  conductor_comment : Option String
deriving DecidableEq

/-- JavaScript truthiness of a possibly-absent string field. -/
def jsTruthyString : Option String → Bool
  | none => false
  | some s => !(s == "")

/-- JavaScript truthiness of a possibly-absent array field. -/
def jsTruthyArray : Option (List String) → Bool
  | none => false
  | some _ => true

/-- The whole validation check of `runLLM_Question_Command`. -/
def questionFieldsPresent (r : QuestionRecord) : Bool :=
  jsTruthyString r.question_text && jsTruthyArray r.options &&
    jsTruthyString r.correct_answer && jsTruthyString r.conductor_comment

/-- The error thrown when the check fails ("Parsed JSON is missing required
question schema fields."). -/
inductive SchemaError
  | missingQuestionFields
deriving DecidableEq

/-- Step 5 of `runLLM_Question_Command`: return the parsed record when the
presence check passes, otherwise throw. -/
def runLLM_Question_Command_validate (r : QuestionRecord) :
    Except SchemaError QuestionRecord :=
  if questionFieldsPresent r then .ok r else .error .missingQuestionFields

/-! ## The quiz scene of `src/unnamed/part_003` (second draft) and `src/main.js`

`processPlayerGuess` (part_003 lines 315-366, main.js lines 241-298):
bail out to topic selection when no question is installed; otherwise compare
the guess with the installed correct answer locally, call `updateStatus`, and
on success copy the returned `StatusUpdate` into the global `gameState`
(`score += statusUpdate.score_adjustment` and difficulty / history / tone
assigned verbatim); on failure only a console/UI message is produced. -/

/-- The global `gameState` object of `src/llm_service.js` (part_001 draft). -/
structure GameState where
  score : Int
  difficulty : String
  conversation_tone : String
  game_history : String
  last_topic : String
deriving DecidableEq

/-- A validated `StatusUpdate` as returned by `updateStatus` /
`runLLM_Command`, with the fields the scene reads. -/
structure StatusUpdate where
  challenge_difficulty : String
  score_adjustment : Int
  context_summary : String
  conversation_tone : String
  conductor_comment : String
deriving DecidableEq

/-- A question as installed in `currentQuestionData`. -/
structure QuestionData where
  question_text : String
  options : List String
  correct_answer : String
  conductor_comment : String
deriving DecidableEq

/-- The scene-owned mutable state touched by `processPlayerGuess`. -/
structure SceneState where
  gameState : GameState
  currentQuestionData : Option QuestionData
deriving DecidableEq

/-- What `processPlayerGuess` did: restarted topic selection (the
`!currentQuestionData` guard) or processed the guess with the given local
correctness verdict. -/
inductive GuessOutcome
  | restartedTopicSelection
  | processed (isCorrect : Bool)
deriving DecidableEq

/-- Lines 344-347 of part_003: copy the LLM `StatusUpdate` into `gameState`. -/
def applyStatusUpdate (gs : GameState) (u : StatusUpdate) : GameState :=
  { gs with
      score := gs.score + u.score_adjustment
      difficulty := u.challenge_difficulty
      game_history := u.context_summary
      conversation_tone := u.conversation_tone }

/-- `processPlayerGuess` of part_003 (second draft) / main.js.  The
`statusResult` argument is the settled outcome of the awaited
`updateStatus(guess)` call; a thrown error corresponds to `.error`. -/
def processPlayerGuess_part003 (st : SceneState) (guess : String)
    (statusResult : Except String StatusUpdate) : SceneState × GuessOutcome :=
  match st.currentQuestionData with
  | none => (st, .restartedTopicSelection)
  | some q =>
      match statusResult with
      | .ok u =>
          ({ st with gameState := applyStatusUpdate st.gameState u },
           .processed (guess == q.correct_answer))
      | .error _ => (st, .processed (guess == q.correct_answer))

/-- The ordered difficulty ladder of the `GAME_STATE_SCHEMA` enum (the
`Game_Over` terminal value aside), matching the prompt rule
"increase challenge_difficulty (Easy -> Medium -> Hard)". -/
def challengeDifficultyLadder : List String := ["Easy", "Medium", "Hard"]

/-! ## The quiz scene of `src/app.jsx` -/

/-- The scene fields of the `src/app.jsx` draft. -/
structure AppSceneState where
  currentScore : Int
  difficultyLevel : String
  conversationTone : String
  currentQuestionData : Option QuestionData
deriving DecidableEq

/-- The payload emitted as `GAME_STATE_UPDATE` at the end of a guess. -/
structure ResultPayload where
  score : Int
  difficulty : String
  conversation_tone : String
  phase : String
  isCorrect : Bool
  scoreAdjustment : Int
  conductorComment : String
deriving DecidableEq

/-- Lines 355-367 of app.jsx: threshold-based difficulty and tone update. -/
def difficultyToneFromScore (score : Int) : String × String :=
  if score ≥ 500 then ("Difficult", "Challenging")
  else if score ≥ 200 then ("Medium", "Excited")
  else if score ≥ 0 then ("Easy", "Normal")
  else ("Very Easy", "Sassy")

/-- The canned comment used when the commentary call fails (app.jsx 413). -/
def fallbackComment (isCorrect : Bool) : String :=
  if isCorrect then "Excellent! You earned points. Ready for the next one?"
  else "That\x27s not quite right. Better luck on the next question!"

/-- `processPlayerGuess` of app.jsx (lines 331-416, including the
`getConductorCommentary` continuation).  `commentary` is the settled result
of the LLM commentary call: arbitrary generated text on success, `.error` if
the call threw.  Correctness is decided locally before that call is made. -/
def processPlayerGuess_appjsx (st : AppSceneState) (guess : String)
    (commentary : Except String String) : AppSceneState × Option ResultPayload :=
  match st.currentQuestionData with
  | none => (st, none)
  | some q =>
      let isCorrect := guess == q.correct_answer
      let points : Int := if isCorrect then 100 else -50
      let newScore := st.currentScore + points
      let dt := difficultyToneFromScore newScore
      let comment := match commentary with
        | .ok c => c
        | .error _ => fallbackComment isCorrect
      ({ st with currentScore := newScore, difficultyLevel := dt.1, conversationTone := dt.2 },
       some { score := newScore, difficulty := dt.1, conversation_tone := dt.2,
              phase := "quiz_result", isCorrect := isCorrect, scoreAdjustment := points,
              conductorComment := comment })

/-! ## Topic fetching, continue flow and the retry loop -/

/-- A parsed topic payload of `getNewTopics`. -/
structure TopicData where
  topics : List String
  comment : String
deriving DecidableEq

/-- The hardcoded fallback topics of `showTopicSelection` (main.js 180). -/
def defaultTopics : List String := ["80s Pop Music", "Travel Trivia", "SF Sports History"]

/-- The event a topic request ends with: `TOPICS_READY` with a topic list,
or only a `CONVERSATION_UPDATE` message. -/
inductive TopicsEmit
  | topicsReady (topics : List String)
  | conversationUpdate (message : String)
deriving DecidableEq

/-- Whether the emitted event presents topics to the player. -/
def TopicsEmit.isReady : TopicsEmit → Bool
  | .topicsReady _ => true
  | _ => false

/-- `showTopicSelection` of main.js (lines 174-196): topics start as the
defaults, a successful `getNewTopics` overwrites them, a thrown error is
caught and leaves the defaults in place; `TOPICS_READY` is always emitted. -/
def showTopicSelection_mainjs (result : Except String TopicData) : TopicsEmit :=
  .topicsReady (match result with
    | .ok td => td.topics
    | .error _ => defaultTopics)

/-- `getTopics` of app.jsx (lines 251-276): a parsed non-empty string array is
emitted as `TOPICS_READY`; everything else (parse failure, empty array, call
failure) lands in the catch which only emits an error message. -/
def getTopics_appjsx (result : Except String (List String)) : TopicsEmit :=
  match result with
  | .ok parsed =>
      if parsed.length > 0 then .topicsReady parsed
      else .conversationUpdate "Error: Could not retrieve topics. Please refresh."
  | .error _ => .conversationUpdate "Error: Could not retrieve topics. Please refresh."

/-- The slice of React UI state used by the `TOPICS_READY` listener. -/
structure UIState where
  score : Int
  topics : List String
  phase : String
  message : String
deriving DecidableEq

/-- The `TOPICS_READY` listener of app.jsx (lines 521-529). -/
def handleTopicsReady (ui : UIState) (topics : List String) : UIState :=
  { ui with topics := topics, phase := "topic_select",
            message := "Choose Your Topic from the options below:" }

/-- What `startNextRound` can do next.  The `requestQuestion` constructor is
the behaviour the specification describes (a question on `lastTopic`); it is
part of the observation language and never produced by the source. -/
inductive NextRoundAction
  | winAnnouncement (message : String)
  | requestTopics
  | requestQuestion (topic : String)
deriving DecidableEq

/-- Whether the action asks the backend for a question. -/
def NextRoundAction.requestsQuestion : NextRoundAction → Bool
  | .requestQuestion _ => true
  | _ => false

/-- The closing message of app.jsx line 421. -/
def winMessage : String := "Congratulations! You have mastered the Music Trivia Challenge!"

/-- `startNextRound` of app.jsx (lines 419-428) / part_002 (lines 555-565):
at 1000 or more points announce the win and start nothing further; otherwise
call `getTopics()` (back to topic selection). -/
def startNextRound_appjsx (currentScore : Int) : NextRoundAction :=
  if currentScore ≥ 1000 then .winAnnouncement winMessage else .requestTopics

/-- `MAX_RETRIES` of `callGeminiAPI` (app.jsx line 200). -/
def geminiMaxRetries : Nat := 5

/-- The `for (let i = 0; i < MAX_RETRIES; i++)` loop of `callGeminiAPI`
(app.jsx lines 219-241).  `attempt i` is the outcome of the i-th fetch
(`some` = `response.ok` with that body, `none` = failure); the result pairs
the returned body with the number of attempts that were made.  The fuel is
the remaining loop iterations. -/
def callGeminiAPI_go (attempt : Nat → Option String) : Nat → Nat → Except String (String × Nat)
  | _, 0 => .error "Failed to get response from LLM after multiple retries."
  | i, fuel + 1 =>
      match attempt i with
      | some r => .ok (r, i + 1)
      | none => callGeminiAPI_go attempt (i + 1) fuel

/-- `callGeminiAPI` of app.jsx: run the loop from attempt 0 with
`MAX_RETRIES` iterations available. -/
def callGeminiAPI (attempt : Nat → Option String) : Except String (String × Nat) :=
  callGeminiAPI_go attempt 0 geminiMaxRetries

/-! ## Concrete fixtures used by the claim theorems -/

/-- A well-formed question fixture. -/
def sampleQuestion : QuestionData :=
  { question_text := "Which band recorded the song One together with U2 members guesting?"
    options := ["Metallica", "U2", "Queen", "R.E.M."]
    correct_answer := "Metallica"
    conductor_comment := "Tricky one!" }

/-- A scene state with `sampleQuestion` installed and a fresh game state. -/
def sampleScene : SceneState :=
  { gameState :=
      { score := 0, difficulty := "Easy", conversation_tone := "Normal"
        game_history := "Game started. Player is new.", last_topic := "Metallica" }
    currentQuestionData := some sampleQuestion }

/-- A `StatusUpdate` in which the model awards itself 5000 points. -/
def hugeScoreUpdate : StatusUpdate :=
  { challenge_difficulty := "Easy", score_adjustment := 5000
    context_summary := "Player is on fire.", conversation_tone := "Thrilled"
    conductor_comment := "Take all the points!" }

/-- A `StatusUpdate` that jumps the difficulty from Easy straight to Hard. -/
def jumpDifficultyUpdate : StatusUpdate :=
  { challenge_difficulty := "Hard", score_adjustment := 1
    context_summary := "ok", conversation_tone := "Normal", conductor_comment := "ok" }

/-- A `StatusUpdate` whose difficulty is not a ladder value at all. -/
def offLadderUpdate : StatusUpdate :=
  { challenge_difficulty := "Banana", score_adjustment := 1
    context_summary := "ok", conversation_tone := "Normal", conductor_comment := "ok" }

/-- A parsed question with three options and a correct answer that is not
among them; every field is present and truthy. -/
def threeOptionRecord : QuestionRecord :=
  { question_text := some "Which instrument has 47 strings?"
    options := some ["Harp", "Guitar", "Cello"]
    correct_answer := some "Piano"
    conductor_comment := some "Good luck!" }

/-- A JSON object fixture for the round-trip theorems. -/
def topicsObj : List Char := ("\x7b\"topics\":[\"Rock\",\"Pop\"]\x7d").data

/-- The same object wrapped with a suffix that contains a closing brace. -/
def topicsObjBraceSuffix : List Char := topicsObj ++ ("\x7d").data

/-- A response containing no JSON object at all. -/
def noJsonResponse : List Char := ("Sorry, I cannot produce JSON today.").data

/-- An LLM backend that fails on the first two attempts and succeeds on the
third. -/
def failTwiceBackend (i : Nat) : Option String :=
  if i = 2 then some "topics-json" else none

/-- An LLM backend that always fails. -/
def alwaysFailBackend (_ : Nat) : Option String := none

/-! ## Lemmas about the extraction steps -/

theorem dropWhile_eq_self_of_head (p : Char → Bool) {l : List Char} {c : Char}
    (hh : l.head? = some c) (hc : p c = false) : l.dropWhile p = l := by
  cases l with
  | nil => rfl
  | cons a t =>
    simp only [List.head?_cons, Option.some.injEq] at hh
    subst hh
    simp [List.dropWhile_cons, hc]

theorem mem_of_mem_dropWhile (p : Char → Bool) {l : List Char} {c : Char}
    (h : c ∈ l.dropWhile p) : c ∈ l := by
  rw [← List.takeWhile_append_dropWhile (p := p) (l := l)]
  exact List.mem_append_right _ h

theorem mem_of_mem_trimL {l : List Char} {c : Char} (h : c ∈ trimL l) : c ∈ l :=
  mem_of_mem_dropWhile isJsWs h

theorem mem_of_mem_trimR {l : List Char} {c : Char} (h : c ∈ trimR l) : c ∈ l := by
  unfold trimR at h
  rw [List.mem_reverse] at h
  have := mem_of_mem_dropWhile isJsWs h
  rwa [List.mem_reverse] at this

theorem mem_of_mem_jsTrim {l : List Char} {c : Char} (h : c ∈ jsTrim l) : c ∈ l :=
  mem_of_mem_trimL (mem_of_mem_trimR h)

theorem head?_append_left {l t : List Char} {c : Char} (h : l.head? = some c) :
    (l ++ t).head? = some c := by
  cases l with
  | nil => simp at h
  | cons a s => simpa using h

/-- Trimming from the left only eats into a prefix that stands before a
character that is not whitespace. -/
theorem trimL_append_decomp (pre rest : List Char) (c : Char)
    (hh : rest.head? = some c) (hc : isJsWs c = false) :
    ∃ pre₂ : List Char, trimL (pre ++ rest) = pre₂ ++ rest ∧ ∀ x ∈ pre₂, x ∈ pre := by
  induction pre with
  | nil =>
    refine ⟨[], ?_, by simp⟩
    simpa [trimL] using dropWhile_eq_self_of_head isJsWs hh hc
  | cons a t ih =>
    cases ha : isJsWs a with
    | true =>
      obtain ⟨p₂, he, hm⟩ := ih
      refine ⟨p₂, ?_, fun x hx => List.mem_cons_of_mem _ (hm x hx)⟩
      simp only [trimL, List.cons_append, List.dropWhile_cons, ha, if_true]
      simpa [trimL] using he
    | false =>
      refine ⟨a :: t, ?_, fun x hx => hx⟩
      simp [trimL, List.cons_append, List.dropWhile_cons, ha]

/-- `jsTrim` applied to a wrapped JSON object only trims the wrapping: the
result is the object with some sub-part of the prefix and suffix around it. -/
theorem jsTrim_wrap_decomp (pre obj suf : List Char)
    (h1 : obj.head? = some lbrace) (h2 : obj.getLast? = some rbrace) :
    ∃ pre₂ suf₂ : List Char,
      jsTrim (pre ++ obj ++ suf) = pre₂ ++ obj ++ suf₂
      ∧ (∀ x ∈ pre₂, x ∈ pre) ∧ (∀ x ∈ suf₂, x ∈ suf) := by
  have hws1 : isJsWs lbrace = false := by decide
  have hws2 : isJsWs rbrace = false := by decide
  have hh : (obj ++ suf).head? = some lbrace := head?_append_left h1
  obtain ⟨pre₂, heL, hmL⟩ := trimL_append_decomp pre (obj ++ suf) lbrace hh hws1
  have hhR : (obj.reverse ++ pre₂.reverse).head? = some rbrace :=
    head?_append_left (by rw [List.head?_reverse]; exact h2)
  obtain ⟨suf₂r, heR, hmR⟩ :=
    trimL_append_decomp suf.reverse (obj.reverse ++ pre₂.reverse) rbrace hhR hws2
  refine ⟨pre₂, suf₂r.reverse, ?_, hmL, ?_⟩
  · have e1 : trimL (pre ++ obj ++ suf) = pre₂ ++ (obj ++ suf) := by
      simp only [List.append_assoc]
      exact heL
    unfold jsTrim
    rw [e1]
    unfold trimR
    have e2 : (pre₂ ++ (obj ++ suf)).reverse = suf.reverse ++ (obj.reverse ++ pre₂.reverse) := by
      simp [List.reverse_append, List.append_assoc]
    rw [e2]
    have e3 := heR
    simp only [trimL] at e3
    rw [e3]
    simp [List.reverse_append, List.append_assoc]
  · intro x hx
    rw [List.mem_reverse] at hx
    have := hmR x hx
    rwa [List.mem_reverse] at this

theorem dropBeforeFirstBrace_wrap (pre₂ rest : List Char)
    (hp : ∀ x ∈ pre₂, x ≠ lbrace) (hh : rest.head? = some lbrace) :
    dropBeforeFirstBrace (pre₂ ++ rest) = rest := by
  unfold dropBeforeFirstBrace
  have hp2 : ∀ a ∈ pre₂, (fun c => !(c == lbrace)) a = true := by
    intro a ha
    have : (a == lbrace) = false := beq_eq_false_iff_ne.mpr (hp a ha)
    simp [this]
  rw [List.dropWhile_append_of_pos hp2]
  exact dropWhile_eq_self_of_head _ hh (by simp)

theorem keepThroughLastBrace_wrap (obj suf₂ : List Char)
    (h2 : obj.getLast? = some rbrace) (hs : ∀ x ∈ suf₂, x ≠ rbrace) :
    keepThroughLastBrace (obj ++ suf₂) = obj := by
  have hmem : rbrace ∈ obj ++ suf₂ :=
    List.mem_append_left _ (List.mem_of_mem_getLast? h2)
  unfold keepThroughLastBrace
  rw [if_pos (List.elem_iff.mpr hmem)]
  rw [List.reverse_append]
  have hsp : ∀ a ∈ suf₂.reverse, (fun c => !(c == rbrace)) a = true := by
    intro a ha
    rw [List.mem_reverse] at ha
    have : (a == rbrace) = false := beq_eq_false_iff_ne.mpr (hs a ha)
    simp [this]
  rw [List.dropWhile_append_of_pos hsp]
  have hh : obj.reverse.head? = some rbrace := by rw [List.head?_reverse]; exact h2
  rw [dropWhile_eq_self_of_head _ hh (by simp), List.reverse_reverse]

theorem stripFence_eq_self {l : List Char} (h : l.getLast? = some rbrace) :
    stripFence l = l := by
  have hf : endsWithFence l = false := by
    unfold endsWithFence
    cases hrev : l.reverse with
    | nil => rfl
    | cons a t =>
      have ha : a = rbrace := by
        have h2 := h
        rw [← List.head?_reverse, hrev] at h2
        simpa using h2
      subst ha
      apply beq_eq_false_iff_ne.mpr
      intro he
      have h3 : rbrace = btick := by
        have := congrArg List.head? he
        simpa [fenceToken] using this
      exact absurd h3 (by decide)
  unfold stripFence
  rw [hf]
  simp

theorem trailingJunk_of_rbrace {l : List Char} (h : l.getLast? = some rbrace) :
    trailingJunk l = false := by
  unfold trailingJunk
  rw [h]
  decide

theorem stripTrailingJunk_eq_self {l : List Char} (h : trailingJunk l = false) :
    stripTrailingJunk l = l := by
  unfold stripTrailingJunk
  cases l.length with
  | zero => rfl
  | succ n => simp [stripTrailingJunkFuel, h]

theorem not_contains_lbrace_jsTrim {full : List Char} (h : lbrace ∉ full) :
    (jsTrim full).contains lbrace = false :=
  Bool.eq_false_iff.mpr (fun ht => h (mem_of_mem_jsTrim (List.elem_iff.mp ht)))

/-! ## Claim C4 -/

/-- Claim C4, counterexample: the round trip does NOT hold for an arbitrary
wrapping suffix.  Wrapping the serialized object with the one-character
suffix consisting of a closing brace makes `runLLM_Command_extract` return
the object text together with that stray brace (the last-brace truncation
keeps it), so the extracted text is not the object and `JSON.parse` of it
would fail. -/
theorem runLLM_Command_extract_not_roundtrip_for_all_wrappings :
    runLLM_Command_extract topicsObjBraceSuffix = .ok topicsObjBraceSuffix
    ∧ topicsObjBraceSuffix ≠ topicsObj := by
  constructor
  · rfl
  · decide

/-- Claim C4 (amended): for the part_001 `runLLM_Command` extraction, if a
JSON object (a string starting with an opening brace and ending with a
closing brace) is wrapped with a prose prefix containing no opening brace
and a suffix containing no closing brace (markdown fences, trailing dots,
newlines and prose included), the extraction returns exactly the object
text, so parsing it yields exactly the wrapped object. -/
theorem runLLM_Command_extract_roundtrip :
    ∀ pre obj suf : List Char,
      obj.head? = some lbrace → obj.getLast? = some rbrace →
      (∀ c ∈ pre, c ≠ lbrace) → (∀ c ∈ suf, c ≠ rbrace) →
      runLLM_Command_extract (pre ++ obj ++ suf) = .ok obj := by
  intro pre obj suf h1 h2 hpre hsuf
  obtain ⟨pre₂, suf₂, he, hmp, hms⟩ := jsTrim_wrap_decomp pre obj suf h1 h2
  have hlb : lbrace ∈ pre₂ ++ obj ++ suf₂ :=
    List.mem_append_left _ (List.mem_append_right _ (List.mem_of_mem_head? h1))
  have hcontains : (jsTrim (pre ++ obj ++ suf)).contains lbrace = true := by
    rw [he]; exact List.elem_iff.mpr hlb
  unfold runLLM_Command_extract
  rw [hcontains, if_pos rfl, he]
  unfold cleanWithLastBrace
  have e1 : pre₂ ++ obj ++ suf₂ = pre₂ ++ (obj ++ suf₂) := by
    simp [List.append_assoc]
  rw [e1, dropBeforeFirstBrace_wrap pre₂ (obj ++ suf₂)
        (fun x hx => hpre x (hmp x hx)) (head?_append_left h1)]
  rw [keepThroughLastBrace_wrap obj suf₂ h2 (fun x hx => hsuf x (hms x hx))]
  rw [stripFence_eq_self h2, stripTrailingJunk_eq_self (trailingJunk_of_rbrace h2)]

/-- Claim C4, witness: a concrete prose-and-fence wrapping around the topics
object is extracted back to exactly the object text. -/
theorem runLLM_Command_extract_roundtrip_witness :
    runLLM_Command_extract
        (("Here is your JSON:\n").data ++ topicsObj ++ (" Hope that helps.\n").data)
      = .ok topicsObj :=
  runLLM_Command_extract_roundtrip ("Here is your JSON:\n").data topicsObj
    (" Hope that helps.\n").data (by decide) (by decide) (by decide) (by decide)

/-! ## Claim C5 -/

/-- Claim C5, counterexample: on an input with no opening brace,
`runLLM_API_Call` of part_002 with the empty schema name (the commentary
path, used by `getConductorCommentary`) RETURNS the raw text as a value
instead of failing with a structured error. -/
theorem runLLM_API_Call_returns_raw_value_without_brace :
    runLLM_API_Call_extract [] noJsonResponse = .ok (.rawText noJsonResponse)
    ∧ lbrace ∉ noJsonResponse := by
  constructor
  · rfl
  · decide

/-- Claim C5 (amended): for every input with no opening brace, the
`runLLM_Topic_Command` parser of llm_service.js fails with the thrown
no-JSON-start error (whose message does not carry the raw text), and
`runLLM_API_Call` of part_002 does the same whenever a schema name is given;
only the empty-schema-name commentary path returns the raw text as a value. -/
theorem extract_noJsonStart_behavior :
    ∀ full : List Char, lbrace ∉ full →
      runLLM_Topic_Command_extract full = .error .noJsonStart
      ∧ ∀ schemaName : List Char, schemaName ≠ [] →
          runLLM_API_Call_extract schemaName full = .error (.noJsonStart schemaName) := by
  intro full h
  have hc := not_contains_lbrace_jsTrim h
  constructor
  · unfold runLLM_Topic_Command_extract
    rw [hc]
    rfl
  · intro sn hsn
    unfold runLLM_API_Call_extract
    rw [hc]
    have hb : (sn == ([] : List Char)) = false := beq_eq_false_iff_ne.mpr hsn
    rw [hb]
    rfl

/-- Claim C5, witness: the concrete brace-free response makes the topic
parser fail and makes `runLLM_API_Call` with schema name `QuestionSchema`
fail with an error naming that schema. -/
theorem extract_noJsonStart_behavior_witness :
    runLLM_Topic_Command_extract noJsonResponse = .error .noJsonStart
    ∧ runLLM_API_Call_extract ("QuestionSchema").data noJsonResponse
        = .error (.noJsonStart ("QuestionSchema").data) :=
  have h := extract_noJsonStart_behavior noJsonResponse (by decide)
  ⟨h.1, h.2 ("QuestionSchema").data (by decide)⟩

/-! ## Claim C1 -/

/-- Claim C1: the `Question` validation of `runLLM_Question_Command` checks
only that the four fields are present and truthy, so a record with three
options whose correct answer is not among them passes validation and is
returned - no `SchemaViolation` is raised, although the in-file
`QUESTION_SCHEMA` documents exactly four options with the correct answer
among them.  This theorem evaluates the embedded validator at that failing
input. -/
theorem runLLM_Question_Command_accepts_invalid_question :
    runLLM_Question_Command_validate threeOptionRecord = .ok threeOptionRecord
    ∧ (threeOptionRecord.options.getD []).length ≠ 4
    ∧ threeOptionRecord.correct_answer.getD "" ∉ threeOptionRecord.options.getD [] := by
  refine ⟨rfl, by decide, by decide⟩

/-! ## Claim C2 -/

/-- Claim C2: the part_003 / main.js `processPlayerGuess` applies whatever
`score_adjustment` the model returned, verbatim and unclamped: with the
model awarding 5000 points for one correct answer the score becomes 5000,
and in general the new score is always the old score plus the model-chosen
adjustment - there is no fixed rule table. -/
theorem processPlayerGuess_applies_llm_score_verbatim :
    (processPlayerGuess_part003 sampleScene "Metallica" (.ok hugeScoreUpdate)).1.gameState.score
        = 5000
    ∧ ∀ (gs : GameState) (q : QuestionData) (guess : String) (u : StatusUpdate),
        (processPlayerGuess_part003 ⟨gs, some q⟩ guess (.ok u)).1.gameState.score
          = gs.score + u.score_adjustment := by
  refine ⟨by decide, ?_⟩
  intro gs q guess u
  rfl

/-! ## Claim C3 -/

/-- Claim C3: in the app.jsx `processPlayerGuess`, the emitted correctness
verdict equals the local string comparison of the guess with the installed
correct answer, and it is identical across any two runs that differ only in
the text the LLM commentary call returns. -/
theorem processPlayerGuess_isCorrect_local_and_llm_independent :
    ∀ (st : AppSceneState) (q : QuestionData) (guess : String)
      (c₁ c₂ : Except String String),
      st.currentQuestionData = some q →
        (processPlayerGuess_appjsx st guess c₁).2.map ResultPayload.isCorrect
            = some (guess == q.correct_answer)
        ∧ (processPlayerGuess_appjsx st guess c₁).2.map ResultPayload.isCorrect
            = (processPlayerGuess_appjsx st guess c₂).2.map ResultPayload.isCorrect := by
  intro st q guess c₁ c₂ h
  obtain ⟨sc, dl, ct, cq⟩ := st
  simp only at h
  subst h
  constructor
  · simp [processPlayerGuess_appjsx]
  · simp [processPlayerGuess_appjsx]

/-- Claim C3, witness: with the sample question installed, the verdict for
the guess `U2` is the local comparison result and is the same whether the
commentary call returns one text, another text, or fails. -/
theorem processPlayerGuess_isCorrect_local_witness :
    (processPlayerGuess_appjsx
        ⟨0, "Easy", "Normal", some sampleQuestion⟩ "U2" (.ok "Splendid!")).2.map
          ResultPayload.isCorrect
      = some ("U2" == sampleQuestion.correct_answer)
    ∧ (processPlayerGuess_appjsx
        ⟨0, "Easy", "Normal", some sampleQuestion⟩ "U2" (.ok "Splendid!")).2.map
          ResultPayload.isCorrect
      = (processPlayerGuess_appjsx
        ⟨0, "Easy", "Normal", some sampleQuestion⟩ "U2" (.error "timeout")).2.map
          ResultPayload.isCorrect :=
  processPlayerGuess_isCorrect_local_and_llm_independent
    ⟨0, "Easy", "Normal", some sampleQuestion⟩ sampleQuestion "U2"
    (.ok "Splendid!") (.error "timeout") rfl

/-! ## Claim C9 -/

/-- Claim C9: the part_003 / main.js `processPlayerGuess` assigns the model
`challenge_difficulty` verbatim, so the difficulty can jump two rungs at
once (Easy straight to Hard) and can even leave the ladder entirely (any
string the model returns, such as Banana, is installed). -/
theorem processPlayerGuess_difficulty_jump_unbounded :
    (processPlayerGuess_part003 sampleScene "Metallica"
        (.ok jumpDifficultyUpdate)).1.gameState.difficulty = "Hard"
    ∧ challengeDifficultyLadder.indexOf "Hard"
        = challengeDifficultyLadder.indexOf "Easy" + 2
    ∧ (processPlayerGuess_part003 sampleScene "Metallica"
        (.ok offLadderUpdate)).1.gameState.difficulty = "Banana"
    ∧ "Banana" ∉ challengeDifficultyLadder := by
  refine ⟨rfl, by decide, rfl, by decide⟩

/-! ## Claim C10 -/

/-- Claim C10: when no question is installed, `processPlayerGuess` changes
nothing: the part_003 / main.js draft restarts topic selection and returns
with the scene state untouched, and the app.jsx / part_000 draft returns
immediately with no emission; in both cases score, difficulty, tone and the
rest of the session state are exactly what they were. -/
theorem processPlayerGuess_noop_without_question :
    (∀ (st : SceneState) (guess : String) (r : Except String StatusUpdate),
      st.currentQuestionData = none →
        processPlayerGuess_part003 st guess r = (st, .restartedTopicSelection))
    ∧ ∀ (ast : AppSceneState) (guess : String) (c : Except String String),
        ast.currentQuestionData = none →
          processPlayerGuess_appjsx ast guess c = (ast, none) := by
  constructor
  · intro st guess r h
    obtain ⟨gs, cq⟩ := st
    simp only at h
    subst h
    rfl
  · intro ast guess c h
    obtain ⟨sc, dl, ct, cq⟩ := ast
    simp only at h
    subst h
    rfl

/-- Claim C10, witness: concrete questionless states are returned unchanged
by both drafts. -/
theorem processPlayerGuess_noop_without_question_witness :
    processPlayerGuess_part003 ⟨sampleScene.gameState, none⟩ "U2" (.error "down")
        = (⟨sampleScene.gameState, none⟩, .restartedTopicSelection)
    ∧ processPlayerGuess_appjsx ⟨0, "Easy", "Normal", none⟩ "U2" (.ok "chat")
        = (⟨0, "Easy", "Normal", none⟩, none) :=
  ⟨processPlayerGuess_noop_without_question.1
      ⟨sampleScene.gameState, none⟩ "U2" (.error "down") rfl,
   processPlayerGuess_noop_without_question.2
      ⟨0, "Easy", "Normal", none⟩ "U2" (.ok "chat") rfl⟩

/-! ## Claim C6 -/

theorem callGeminiAPI_go_all_fail :
    ∀ (fuel i : Nat) (attempt : Nat → Option String),
      (∀ j, j < fuel → attempt (i + j) = none) →
      callGeminiAPI_go attempt i fuel
        = .error "Failed to get response from LLM after multiple retries." := by
  intro fuel
  induction fuel with
  | zero => intro i attempt _; rfl
  | succ n ih =>
    intro i attempt h
    have h0 : attempt i = none := by simpa using h 0 (Nat.succ_pos n)
    unfold callGeminiAPI_go
    rw [h0]
    apply ih (i + 1)
    intro j hj
    have := h (j + 1) (Nat.succ_lt_succ hj)
    rwa [show i + 1 + j = i + (j + 1) by omega]

theorem callGeminiAPI_go_first_success :
    ∀ (fuel k i : Nat) (attempt : Nat → Option String) (r : String),
      k < fuel → attempt (i + k) = some r →
      (∀ j, j < k → attempt (i + j) = none) →
      callGeminiAPI_go attempt i fuel = .ok (r, i + k + 1) := by
  intro fuel
  induction fuel with
  | zero => intro k i attempt r hk; exact absurd hk (Nat.not_lt_zero k)
  | succ n ih =>
    intro k i attempt r hk ha hnone
    cases k with
    | zero =>
      have ha0 : attempt i = some r := by simpa using ha
      unfold callGeminiAPI_go
      rw [ha0]
    | succ m =>
      have h0 : attempt i = none := by simpa using hnone 0 (Nat.succ_pos m)
      unfold callGeminiAPI_go
      rw [h0]
      have hmain := ih m (i + 1) attempt r (Nat.lt_of_succ_lt_succ hk)
        (by rwa [show i + 1 + m = i + (m + 1) by omega])
        (fun j hj => by
          have := hnone (j + 1) (Nat.succ_lt_succ hj)
          rwa [show i + 1 + j = i + (j + 1) by omega])
      rw [hmain, show i + 1 + m + 1 = i + (m + 1) + 1 by omega]

/-- Claim C6, counterexample: with a backend that fails the first two
attempts, `callGeminiAPI` makes a third attempt and returns its response -
so a failed call is retried more than once and the second failure does not
trigger any fallback, contradicting the at-most-one-retry bound. -/
theorem callGeminiAPI_retries_beyond_once :
    callGeminiAPI failTwiceBackend = .ok ("topics-json", 3) := rfl

/-- Claim C6 (amended): `callGeminiAPI` makes up to `MAX_RETRIES = 5`
attempts (the first try plus up to four retries) with exponential backoff;
it returns the first successful response together with the number of
attempts made, and only after all five attempts fail does it fail with the
error its callers convert into fallback content or a user-visible notice. -/
theorem callGeminiAPI_retry_bound :
    ∀ attempt : Nat → Option String,
      ((∀ i, i < geminiMaxRetries → attempt i = none) →
        callGeminiAPI attempt
          = .error "Failed to get response from LLM after multiple retries.")
      ∧ ∀ (k : Nat) (r : String), k < geminiMaxRetries → attempt k = some r →
          (∀ j, j < k → attempt j = none) →
          callGeminiAPI attempt = .ok (r, k + 1) := by
  intro attempt
  constructor
  · intro h
    exact callGeminiAPI_go_all_fail geminiMaxRetries 0 attempt
      (fun j hj => by simpa using h j hj)
  · intro k r hk ha hnone
    have := callGeminiAPI_go_first_success geminiMaxRetries k 0 attempt r hk
      (by simpa using ha) (fun j hj => by simpa using hnone j hj)
    simpa using this

/-- Claim C6, witness: a backend that always fails exhausts all five
attempts and ends in the error, and the fail-twice backend succeeds on its
third attempt. -/
theorem callGeminiAPI_retry_bound_witness :
    callGeminiAPI alwaysFailBackend
        = .error "Failed to get response from LLM after multiple retries."
    ∧ callGeminiAPI failTwiceBackend = .ok ("topics-json", 3) :=
  ⟨(callGeminiAPI_retry_bound alwaysFailBackend).1 (fun _ _ => rfl),
   (callGeminiAPI_retry_bound failTwiceBackend).2 2 "topics-json" (by decide) rfl
     (fun j hj => by interval_cases j <;> rfl)⟩

/-! ## Claim C7 -/

/-- Claim C7, counterexample: when the topic request fails in app.jsx
`getTopics`, no fallback topic list is substituted - the player only gets an
error message asking to refresh, and no `TOPICS_READY` event (hence no
transition to topic selection) occurs. -/
theorem getTopics_appjsx_no_fallback_on_parse_failure :
    getTopics_appjsx (.error "MalformedOutput")
        = .conversationUpdate "Error: Could not retrieve topics. Please refresh."
    ∧ (getTopics_appjsx (.error "MalformedOutput")).isReady = false :=
  ⟨rfl, rfl⟩

/-- Claim C7 (amended): `showTopicSelection` of main.js substitutes the fixed
built-in topic list on any failed topic request and still emits
`TOPICS_READY`, whose React handler moves the session to topic selection
with those fallback topics; the `getTopics` of app.jsx instead surfaces an
error message and does not enter topic selection. -/
theorem showTopicSelection_mainjs_falls_back :
    ∀ (e : String) (ui : UIState),
      showTopicSelection_mainjs (.error e) = .topicsReady defaultTopics
      ∧ (showTopicSelection_mainjs (.error e)).isReady = true
      ∧ (handleTopicsReady ui defaultTopics).phase = "topic_select"
      ∧ (handleTopicsReady ui defaultTopics).topics = defaultTopics := by
  intro e ui
  exact ⟨rfl, rfl, rfl, rfl⟩

/-! ## Claim C8 -/

/-- Claim C8, counterexample: with a score below the 1000 threshold,
`startNextRound` goes back to topic selection via `getTopics()`; it does not
request a question on `lastTopic`. -/
theorem startNextRound_does_not_request_question :
    startNextRound_appjsx 500 = .requestTopics
    ∧ (startNextRound_appjsx 500).requestsQuestion = false := by
  refine ⟨by decide, by decide⟩

/-- Claim C8 (amended): at 1000 points or more `startNextRound` announces
the win and starts no further round (in particular it requests nothing);
below the threshold it calls `getTopics()`, returning the session through
`TOPICS_READY` to the topic-selection phase rather than requesting a
question on `lastTopic`. -/
theorem startNextRound_threshold_behavior :
    ∀ (s : Int) (ui : UIState) (tps : List String),
      (s ≥ 1000 →
        startNextRound_appjsx s = .winAnnouncement winMessage
        ∧ (startNextRound_appjsx s).requestsQuestion = false)
      ∧ (s < 1000 →
        startNextRound_appjsx s = .requestTopics
        ∧ (handleTopicsReady ui tps).phase = "topic_select") := by
  intro s ui tps
  constructor
  · intro h
    unfold startNextRound_appjsx
    rw [if_pos h]
    exact ⟨rfl, rfl⟩
  · intro h
    unfold startNextRound_appjsx
    rw [if_neg (by omega)]
    exact ⟨rfl, rfl⟩

/-- Claim C8, witness: at 1200 points the win is announced, at 500 points
the session is sent back to topic selection. -/
theorem startNextRound_threshold_behavior_witness :
    startNextRound_appjsx 1200 = .winAnnouncement winMessage
    ∧ startNextRound_appjsx 500 = .requestTopics :=
  ⟨((startNextRound_threshold_behavior 1200 ⟨0, [], "loading", ""⟩ []).1 (by decide)).1,
   ((startNextRound_threshold_behavior 500 ⟨0, [], "loading", ""⟩ []).2 (by decide)).1⟩

end MusicTrivia
